import Mathlib

/-
Verification of the werf local git repository core (pkg/git_repo/local.go):
commit-tree path resolution with symlink following, the existence probes
built on it, and working-tree status validation.  The Go code is shallowly
embedded: a commit tree is a pair of functions giving each path its tree
entry mode and its blob content (the link text for symlinks); fallible Go
functions return Except; machine state (contexts, loggers, locks) carries no
semantic content for these functions and is dropped.
-/

set_option maxRecDepth 4096

namespace Werf

/-- File modes of go-git's filemode package as used by the code.  Every mode
outside the known set, including the empty mode reported for a missing tree
entry, is collapsed into `empty`, which is exactly the malformed case of
`FileMode.IsMalformed`. -/
inductive FileMode where
  | empty
  | dir
  | regular
  | deprecated
  | executable
  | symlink
  | submodule
deriving DecidableEq

/-- Embeds go-git `FileMode.IsMalformed`: true for any mode outside the known
set of modes. -/
def FileMode.isMalformed : FileMode → Bool
  | .empty => true
  | _ => false

/-- Splits a character list at every slash, keeping empty segments; the
accumulator holds the current segment reversed.  This is the segment
decomposition underlying the Go path package's lexical operations. -/
def splitSlashAux : List Char → List Char → List String
  | [], acc => [String.mk acc.reverse]
  | c :: cs, acc =>
    if c = '/' then String.mk acc.reverse :: splitSlashAux cs []
    else splitSlashAux cs (c :: acc)

/-- Splits a string at every slash character, keeping empty segments. -/
def splitSlash (s : String) : List String :=
  splitSlashAux s.data []

/-- True when the path begins with a slash (a rooted path). -/
def isRooted (s : String) : Bool :=
  match s.data with
  | [] => false
  | c :: _ => c = '/'

/-- One step of the element stack of Go `path.Clean`: a dot-dot element pops
the previous element when possible, is dropped at the root of a rooted path,
and is kept at the front of a relative path; any other element is pushed. -/
def cleanStep (rooted : Bool) (st : List String) (c : String) : List String :=
  if c = ".." then
    match st with
    | h :: t => if h = ".." then (if rooted then st else c :: st) else t
    | [] => if rooted then [] else [c]
  else c :: st

/-- Embeds Go `path.Clean`: drop empty and dot elements, resolve dot-dot
elements lexically, and render the result ("." for an empty relative
result, "/" for an empty rooted result). -/
def pathClean (p : String) : String :=
  let rooted := isRooted p
  let comps := (splitSlash p).filter (fun c => decide (c ≠ "" ∧ c ≠ "."))
  let stack := (comps.foldl (cleanStep rooted) []).reverse
  let body := String.intercalate "/" stack
  if rooted then "/" ++ body
  else if body = "" then "." else body

/-- Embeds Go `path.Join` on two elements: empty elements are ignored and
the slash-joined result is cleaned; the result is empty when both elements
are empty. -/
def pathJoin2 (a b : String) : String :=
  if a = "" then
    if b = "" then "" else pathClean b
  else if b = "" then pathClean a
  else pathClean (a ++ "/" ++ b)

/-- Embeds Go `path.Dir`: everything up to and including the final slash,
cleaned; "." when the path contains no slash. -/
def pathDir (p : String) : String :=
  pathClean (String.mk ((p.data.reverse.dropWhile (fun c => c ≠ '/')).reverse))

/-- Embeds Go `path.IsAbs`: the path starts with a slash. -/
def pathIsAbs (p : String) : Bool :=
  isRooted p

/-- Embeds Go `strings.HasPrefix(s, "../")` as used by the escape check. -/
def startsWithDotDotSlash (s : String) : Bool :=
  match s.data with
  | c1 :: c2 :: c3 :: _ => c1 = '.' ∧ c2 = '.' ∧ c3 = '/'
  | _ => false

/-- Modelled from the spec: werf's util.SplitFilepath helper (its file is not
among the given sources) decomposes a slash-separated path into the
components that the resolver walks left to right; empty segments do not
form components. -/
def SplitFilepath (p : String) : List String :=
  (splitSlash p).filter (fun c => decide (c ≠ ""))

/-- One commit's tree, the part of the repository the resolver reads: `mode`
plays getCommitTreeEntry (the mode of the entry at a path, `empty` when the
tree has no entry there) and `content` plays ReadCommitTreeEntryContent (the
blob content at a path; for a symlink entry, the link text). -/
structure RepoTree where
  mode : String → FileMode
  content : String → String

/-- The errors resolveCommitFilePath can produce.  `treeEntryNotFound`
embeds the kind-tagged Go type treeEntryNotFoundInRepoErr together with the
path interpolated into its message; `tooManyLevels` embeds the plain
fmt.Errorf for the depth limit; `hookErr` stands for an arbitrary error
returned by a caller-supplied checkSymlinkTargetFunc;
`wrappedResolveFailure` embeds the fmt.Errorf wrapping that
checkCommitFileMode applies to a resolve failure it does not swallow. -/
inductive ResolveErr where
  | tooManyLevels
  | treeEntryNotFound (p : String)
  | hookErr (msg : String)
  | wrappedResolveFailure (p : String) (e : ResolveErr)
deriving DecidableEq

/-- Embeds IsTreeEntryNotFoundInRepoErr: the type switch recognising exactly
the treeEntryNotFoundInRepoErr kind. -/
def IsTreeEntryNotFoundInRepoErr : ResolveErr → Bool
  | .treeEntryNotFound _ => true
  | _ => false

/-- Runs the optional checkSymlinkTargetFunc: a nil hook accepts every
target. -/
def checkHook (check : Option (String → Option ResolveErr)) (p : String) :
    Option ResolveErr :=
  match check with
  | none => none
  | some f => f p

/-- The component loop of resolveCommitFilePath (the `for ind` loop over
pathParts): `r` is the accumulated resolvedPath, and `resolveTarget` is the
recursive call to resolveCommitFilePath that the Go code makes on a symlink
target, with the incremented depth and the hook already fixed.  Each
component is joined onto the accumulated prefix; a malformed entry fails
not-found; a symlink entry reads the link text, rejects absolute targets,
rejects targets escaping the repository, runs the hook, resolves the target
recursively and replaces the accumulated prefix with that result; any other
mode accepts the joined path as the new prefix. -/
def partsLoop (repo : RepoTree) (check : Option (String → Option ResolveErr))
    (resolveTarget : String → Except ResolveErr String) :
    List String → String → Except ResolveErr String
  | [], r => .ok r
  | c :: rest, r =>
    let pathToResolve := pathJoin2 r c
    if (repo.mode pathToResolve).isMalformed then
      .error (.treeEntryNotFound pathToResolve)
    else if repo.mode pathToResolve = .symlink then
      let link := repo.content pathToResolve
      if pathIsAbs link then
        .error (.treeEntryNotFound link)
      else
        let resolvedLink := pathJoin2 (pathDir pathToResolve) link
        if resolvedLink = ".." ∨ startsWithDotDotSlash resolvedLink = true then
          .error (.treeEntryNotFound link)
        else
          match checkHook check resolvedLink with
          | some e => .error e
          | none =>
            match resolveTarget resolvedLink with
            | .error e => .error e
            | .ok t => partsLoop repo check resolveTarget rest t
    else
      partsLoop repo check resolveTarget rest (pathJoin2 r c)

/-- Embeds resolveCommitFilePath.  The Go function recurses on symlink
targets guarded only by the depth check (`depth > 1000` fails, then depth is
incremented and handed to the recursive call); to give Lean a structurally
decreasing argument the embedding carries `fuel`, seeded by the wrapper
below with `1001 - depth` so that along every reachable call `fuel`
equals `1001 - depth` whenever `depth ≤ 1001`, making the out-of-fuel
branch – which repeats the depth-check error – unreachable past the depth
check.  The body is otherwise a direct translation: the depth check, the
fast path returning the input path when its exact entry is neither a
symlink nor malformed, and the component walk. -/
def resolveAux (repo : RepoTree) (check : Option (String → Option ResolveErr)) :
    Nat → String → Nat → Except ResolveErr String
  | fuel, path, depth =>
    if depth > 1000 then
      .error .tooManyLevels
    else if repo.mode path ≠ .symlink ∧ (repo.mode path).isMalformed = false then
      .ok path
    else
      match fuel with
      | 0 => .error .tooManyLevels
      | fuel' + 1 =>
        partsLoop repo check (fun target => resolveAux repo check fuel' target (depth + 1))
          (SplitFilepath path) ""

/-- Embeds resolveCommitFilePath's observable signature: commit tree, path,
starting depth and optional per-hop validation hook.  ResolveCommitFilePath
enters here with depth 0 and a nil hook; resolveAndCheckCommitFilePath
enters with depth 0 and a caller hook. -/
def resolveCommitFilePath (repo : RepoTree) (path : String) (depth : Nat)
    (check : Option (String → Option ResolveErr)) : Except ResolveErr String :=
  resolveAux repo check (1001 - depth) path depth

/-- Embeds checkCommitFileMode: resolve the path with a nil hook; a resolve
failure of the not-found kind collapses to false, any other resolve failure
is wrapped and propagated; otherwise report whether the resolved entry's
mode is among the expected modes. -/
def checkCommitFileMode (repo : RepoTree) (path : String)
    (expectedFileModeList : List FileMode) : Except ResolveErr Bool :=
  match resolveCommitFilePath repo path 0 none with
  | .error e =>
    if IsTreeEntryNotFoundInRepoErr e then .ok false
    else .error (.wrappedResolveFailure path e)
  | .ok resolvedPath =>
    .ok (decide (repo.mode resolvedPath ∈ expectedFileModeList))

/-- Embeds isCommitFileExist: file existence accepts Regular, Deprecated and
Executable modes. -/
def isCommitFileExist (repo : RepoTree) (path : String) : Except ResolveErr Bool :=
  checkCommitFileMode repo path [.regular, .deprecated, .executable]

/-- Embeds isCommitDirectoryExist: directory existence accepts Dir and
Submodule modes. -/
def isCommitDirectoryExist (repo : RepoTree) (path : String) : Except ResolveErr Bool :=
  checkCommitFileMode repo path [.dir, .submodule]

/-- Embeds the path_matcher.PathMatcher capability consumed by status
validation. -/
structure PathMatcher where
  isPathMatched : String → Bool
  isDirOrSubmodulePathMatched : String → Bool

/-- Embeds status.SubmoduleStatus: a submodule path with its independent
state flags. -/
structure SubmoduleStatus where
  path : String
  isAdded : Bool
  isDeleted : Bool
  isModified : Bool
  hasUntrackedChanges : Bool
  hasTrackedChanges : Bool
  isCommitChanged : Bool

/-- Embeds status.Scope: a deduplicated path list and the submodule
statuses of one status scope. -/
structure Scope where
  pathList : List String
  submodules : List SubmoduleStatus

/-- Embeds status.Result as consumed by validation: the untracked path list
and the Worktree and IndexWithWorktree scopes.  IndexWithWorktree is the
union scope computed by the external status package and is therefore a
field here. -/
structure StatusResult where
  untrackedPathList : List String
  worktree : Scope
  indexWithWorktree : Scope

/-- Embeds StatusPathListOptions, which ValidateStatusResultOptions
aliases. -/
structure StatusPathListOptions where
  onlyWorktreeChanges : Bool
  onlyUntrackedChanges : Bool

/-- The typed violations ValidateStatusResult can return, one constructor
per error type of the Go code, each carrying the offending path data. -/
inductive StatusError where
  | untrackedFilesFound (pathList : List String)
  | uncommittedFilesFound (pathList : List String)
  | submoduleAddedAndNotCommitted (p : String)
  | submoduleDeleted (p : String)
  | submoduleHasUntrackedChanges (p : String)
  | submoduleHasUncommittedChanges (p : String)
  | submoduleCommitChanged (p : String)
deriving DecidableEq

/-- The submodule loop of validateStatusResultSubmodules: skip submodules
rejected by the directory-or-submodule predicate; otherwise return the
first applicable violation in the branching order of the Go code (Added,
then Deleted, then - under Modified - HasUntrackedChanges, HasTrackedChanges,
IsCommitChanged), continuing with the remaining submodules when no branch
applies. -/
def validateSubmodulesLoop (pm : PathMatcher) :
    List SubmoduleStatus → Option StatusError
  | [] => none
  | sm :: rest =>
    if pm.isDirOrSubmodulePathMatched sm.path = false then
      validateSubmodulesLoop pm rest
    else if sm.isAdded then
      some (.submoduleAddedAndNotCommitted sm.path)
    else if sm.isDeleted then
      some (.submoduleDeleted sm.path)
    else if sm.isModified then
      if sm.hasUntrackedChanges then
        some (.submoduleHasUntrackedChanges sm.path)
      else if sm.hasTrackedChanges then
        some (.submoduleHasUncommittedChanges sm.path)
      else if sm.isCommitChanged then
        some (.submoduleCommitChanged sm.path)
      else
        validateSubmodulesLoop pm rest
    else
      validateSubmodulesLoop pm rest

/-- Embeds validateStatusResultSubmodules: an empty submodule list means no
submodule changes; otherwise run the loop. -/
def validateStatusResultSubmodules (pm : PathMatcher) (scope : Scope) :
    Option StatusError :=
  if scope.submodules.length = 0 then none
  else validateSubmodulesLoop pm scope.submodules

/-- Embeds ValidateStatusResult on an already computed status result (the Go
method first obtains the memoized status.Result, which is state this
embedding takes as input): filter untracked paths through the matcher and
fail with UntrackedFilesFound if any matched; stop cleanly when only
untracked changes are checked; otherwise select the scope, filter its path
list, fail with UncommittedFilesFound if any matched, and finally classify
the scope's submodules. -/
def ValidateStatusResult (statusResult : StatusResult) (pm : PathMatcher)
    (opts : StatusPathListOptions) : Option StatusError :=
  let untrackedPathList := statusResult.untrackedPathList.filter pm.isPathMatched
  if untrackedPathList ≠ [] then
    some (.untrackedFilesFound untrackedPathList)
  else if opts.onlyUntrackedChanges then
    none
  else
    let scope := if opts.onlyWorktreeChanges then statusResult.worktree
      else statusResult.indexWithWorktree
    let uncommittedPathList := scope.pathList.filter pm.isPathMatched
    if uncommittedPathList ≠ [] then
      some (.uncommittedFilesFound uncommittedPathList)
    else
      validateStatusResultSubmodules pm scope

/-- Resolve failures of the not-found kind are swallowed by
checkCommitFileMode: the probe reports false without an error. -/
theorem checkCommitFileMode_of_notFound (repo : RepoTree) (path : String)
    (l : List FileMode) (e : ResolveErr)
    (h : resolveCommitFilePath repo path 0 none = .error e)
    (hk : IsTreeEntryNotFoundInRepoErr e = true) :
    checkCommitFileMode repo path l = .ok false := by
  simp [checkCommitFileMode, h, hk]

/-- On a successful resolution checkCommitFileMode reports whether the
resolved entry's mode is among the expected modes. -/
theorem checkCommitFileMode_of_ok (repo : RepoTree) (path : String)
    (l : List FileMode) (rp : String)
    (h : resolveCommitFilePath repo path 0 none = .ok rp) :
    checkCommitFileMode repo path l = .ok (decide (repo.mode rp ∈ l)) := by
  simp [checkCommitFileMode, h]

/-- A commit tree with one regular file and one directory, used for
concrete instances. -/
def probeRepo : RepoTree where
  mode p := if p = "f.txt" then .regular else if p = "d" then .dir else .empty
  content _ := ""

/-- A commit tree whose only entry is a top-level symlink with an absolute
target, used for concrete instances. -/
def sampleRepoAbs : RepoTree where
  mode p := if p = "l" then .symlink else .empty
  content p := if p = "l" then "/etc/abs" else ""

/-- A commit tree whose only entry is a top-level symlink whose target
escapes the repository, used for concrete instances. -/
def sampleRepoEsc : RepoTree where
  mode p := if p = "e" then .symlink else .empty
  content p := if p = "e" then "../out" else ""

/-- C6: the existence probes never raise when resolution reports not-found:
such a resolution collapses to the result false with no error, for both
probes; and on a successful resolution, file existence holds exactly when
the resolved entry's mode is Regular, Deprecated or Executable, and
directory existence exactly when it is Dir or Submodule. -/
theorem claim6_probes_never_raise (repo : RepoTree) (path : String) :
    (∀ e : ResolveErr, resolveCommitFilePath repo path 0 none = .error e →
      IsTreeEntryNotFoundInRepoErr e = true →
      isCommitFileExist repo path = .ok false ∧
      isCommitDirectoryExist repo path = .ok false)
    ∧ (∀ rp : String, resolveCommitFilePath repo path 0 none = .ok rp →
      isCommitFileExist repo path =
        .ok (decide (repo.mode rp ∈ [FileMode.regular, .deprecated, .executable])) ∧
      isCommitDirectoryExist repo path =
        .ok (decide (repo.mode rp ∈ [FileMode.dir, .submodule]))) := by
  constructor
  · intro e h hk
    exact ⟨checkCommitFileMode_of_notFound repo path _ e h hk,
      checkCommitFileMode_of_notFound repo path _ e h hk⟩
  · intro rp h
    exact ⟨checkCommitFileMode_of_ok repo path _ rp h,
      checkCommitFileMode_of_ok repo path _ rp h⟩

/-- Witness for C6 at concrete inputs: a path with no tree entry resolves
to the not-found error and both probes answer false without an error; the
regular file probes as an existing file and not as a directory. -/
theorem claim6_probes_never_raise_witness :
    isCommitFileExist probeRepo "missing" = .ok false
    ∧ isCommitDirectoryExist probeRepo "missing" = .ok false
    ∧ isCommitFileExist probeRepo "f.txt" = .ok true
    ∧ isCommitDirectoryExist probeRepo "f.txt" = .ok false :=
  ⟨((claim6_probes_never_raise probeRepo "missing").1
      (.treeEntryNotFound "missing") rfl rfl).1,
   ((claim6_probes_never_raise probeRepo "missing").1
      (.treeEntryNotFound "missing") rfl rfl).2,
   ((claim6_probes_never_raise probeRepo "f.txt").2 "f.txt" rfl).1,
   ((claim6_probes_never_raise probeRepo "f.txt").2 "f.txt" rfl).2⟩

/-- C9: a resolution that fails because a symlink target is absolute, or
because the computed target escapes the repository, produces an error of
the very not-found kind (carrying the link text), and any resolution
failure of that kind is swallowed by the existence probes, which answer
false with no error exactly as for an ordinary missing path. -/
theorem claim9_policy_failures_swallowed (repo : RepoTree) :
    (∀ (check : Option (String → Option ResolveErr))
        (res : String → Except ResolveErr String) (r c : String)
        (rest : List String),
      repo.mode (pathJoin2 r c) = .symlink →
      (pathIsAbs (repo.content (pathJoin2 r c)) = true →
        partsLoop repo check res (c :: rest) r =
          .error (.treeEntryNotFound (repo.content (pathJoin2 r c)))) ∧
      (pathIsAbs (repo.content (pathJoin2 r c)) = false →
        (pathJoin2 (pathDir (pathJoin2 r c)) (repo.content (pathJoin2 r c)) = ".." ∨
          startsWithDotDotSlash
            (pathJoin2 (pathDir (pathJoin2 r c)) (repo.content (pathJoin2 r c))) = true) →
        partsLoop repo check res (c :: rest) r =
          .error (.treeEntryNotFound (repo.content (pathJoin2 r c)))))
    ∧ (∀ p : String, IsTreeEntryNotFoundInRepoErr (.treeEntryNotFound p) = true)
    ∧ (∀ path q, resolveCommitFilePath repo path 0 none =
        .error (.treeEntryNotFound q) →
      isCommitFileExist repo path = .ok false ∧
      isCommitDirectoryExist repo path = .ok false) := by
  refine ⟨?_, fun p => rfl, ?_⟩
  · intro check res r c rest hsym
    constructor
    · intro habs
      simp [partsLoop, hsym, FileMode.isMalformed, habs]
    · intro habs hesc
      simp [partsLoop, hsym, FileMode.isMalformed, habs, hesc]
  · intro path q h
    exact ⟨checkCommitFileMode_of_notFound repo path _ _ h rfl,
      checkCommitFileMode_of_notFound repo path _ _ h rfl⟩

/-- Witness for C9 at concrete inputs: both the absolute-target symlink and
the repository-escaping symlink make the probes answer false with no
error. -/
theorem claim9_policy_failures_swallowed_witness :
    isCommitFileExist sampleRepoAbs "l" = .ok false
    ∧ isCommitDirectoryExist sampleRepoAbs "l" = .ok false
    ∧ isCommitFileExist sampleRepoEsc "e" = .ok false
    ∧ isCommitDirectoryExist sampleRepoEsc "e" = .ok false :=
  ⟨((claim9_policy_failures_swallowed sampleRepoAbs).2.2 "l" "/etc/abs" rfl).1,
   ((claim9_policy_failures_swallowed sampleRepoAbs).2.2 "l" "/etc/abs" rfl).2,
   ((claim9_policy_failures_swallowed sampleRepoEsc).2.2 "e" "../out" rfl).1,
   ((claim9_policy_failures_swallowed sampleRepoEsc).2.2 "e" "../out" rfl).2⟩

/-- C7: resolution is idempotent on resolved inputs: when the exact tree
entry of the path is neither a symlink nor malformed, resolution returns
the path unchanged (this is the fast path, so it holds for any hook). -/
theorem claim7_resolve_idempotent (repo : RepoTree) (path : String)
    (check : Option (String → Option ResolveErr))
    (h1 : repo.mode path ≠ .symlink)
    (h2 : (repo.mode path).isMalformed = false) :
    resolveCommitFilePath repo path 0 check = .ok path := by
  simp [resolveCommitFilePath, resolveAux, h1, h2]

/-- Witness for C7 at concrete inputs: an existing regular file resolves to
itself. -/
theorem claim7_resolve_idempotent_witness :
    resolveCommitFilePath probeRepo "f.txt" 0 none = .ok "f.txt" :=
  claim7_resolve_idempotent probeRepo "f.txt" none (by decide) (by decide)

/-- A commit tree in which the first component of the path "a/b" is a
symlink to the directory "x" containing the regular file "x/b", used for
concrete instances. -/
def sampleRepoSym : RepoTree where
  mode p :=
    if p = "a" then .symlink
    else if p = "x" then .dir
    else if p = "x/b" then .regular
    else .empty
  content p := if p = "a" then "x" else ""

/-- Counterexample to C2 as stated: in the commit tree sampleRepoSym the
path "a/b" has the symlink "a" at the non-final position 0, the symlink's
computed target resolves to "x", yet the whole path resolves to "x/b" - the
resolver does append the further original component "b" after following the
symlink, so the symlink target does not fully determine the rest of the
resolved path. -/
theorem claim2_counterexample :
    sampleRepoSym.mode "a" = .symlink
    ∧ sampleRepoSym.content "a" = "x"
    ∧ resolveCommitFilePath sampleRepoSym "x" 0 none = .ok "x"
    ∧ resolveCommitFilePath sampleRepoSym "a/b" 0 none = .ok "x/b"
    ∧ "x/b" ≠ "x" :=
  ⟨rfl, rfl, rfl, rfl, by decide⟩

/-- C2 amended: when the walk meets a symlink component with a valid,
hook-accepted target, the recursion is applied to the computed target alone
(none of the original path's remaining components are passed into it), its
result replaces the accumulated prefix, and the walk then continues by
joining each remaining original component onto that replaced prefix. -/
theorem claim2_symlink_replaces_prefix (repo : RepoTree)
    (check : Option (String → Option ResolveErr))
    (res : String → Except ResolveErr String) (r c : String) (rest : List String)
    (hsym : repo.mode (pathJoin2 r c) = .symlink)
    (habs : pathIsAbs (repo.content (pathJoin2 r c)) = false)
    (hesc : ¬(pathJoin2 (pathDir (pathJoin2 r c)) (repo.content (pathJoin2 r c)) = ".." ∨
      startsWithDotDotSlash
        (pathJoin2 (pathDir (pathJoin2 r c)) (repo.content (pathJoin2 r c))) = true))
    (hhook : checkHook check
      (pathJoin2 (pathDir (pathJoin2 r c)) (repo.content (pathJoin2 r c))) = none) :
    partsLoop repo check res (c :: rest) r =
      match res (pathJoin2 (pathDir (pathJoin2 r c)) (repo.content (pathJoin2 r c))) with
      | .error e => .error e
      | .ok t => partsLoop repo check res rest t := by
  simp [partsLoop, hsym, FileMode.isMalformed, habs, hesc, hhook]

/-- Witness for the amended C2 at concrete inputs: walking "a/b" in
sampleRepoSym, the hop over the symlink "a" recurses on its target "x"
alone and continues the walk with the remaining component "b" joined onto
the recursive result. -/
theorem claim2_symlink_replaces_prefix_witness :
    partsLoop sampleRepoSym none
        (fun t => resolveCommitFilePath sampleRepoSym t 1 none) ["a", "b"] "" =
      match resolveCommitFilePath sampleRepoSym "x" 1 none with
      | .error e => .error e
      | .ok t =>
        partsLoop sampleRepoSym none
          (fun t2 => resolveCommitFilePath sampleRepoSym t2 1 none) ["b"] t :=
  claim2_symlink_replaces_prefix sampleRepoSym none
    (fun t => resolveCommitFilePath sampleRepoSym t 1 none) "" "a" ["b"]
    rfl rfl (by decide) rfl

/-- Counterexample to C5 as stated: the absolute-target failure and the
repository-escape failure are built with the very same kind tag as the
plain missing-entry failure (the treeEntryNotFoundInRepoErr type, the only
kind discriminator the boundary offers for them), so neither is
distinguishable at the boundary from entry-not-found. -/
theorem claim5_counterexample :
    resolveCommitFilePath sampleRepoAbs "l" 0 none =
      .error (.treeEntryNotFound "/etc/abs")
    ∧ resolveCommitFilePath sampleRepoEsc "e" 0 none =
      .error (.treeEntryNotFound "../out")
    ∧ resolveCommitFilePath probeRepo "missing" 0 none =
      .error (.treeEntryNotFound "missing")
    ∧ IsTreeEntryNotFoundInRepoErr (.treeEntryNotFound "/etc/abs") = true
    ∧ IsTreeEntryNotFoundInRepoErr (.treeEntryNotFound "../out") = true
    ∧ IsTreeEntryNotFoundInRepoErr (.treeEntryNotFound "missing") = true :=
  ⟨rfl, rfl, rfl, rfl, rfl, rfl⟩

/-- C5 amended: the depth-exceeded failure is a plain error of its own
shape carrying no path and not satisfying the not-found discriminator; the
absolute-target and repository-escape failures are errors of the
entry-not-found kind carrying the offending link text (hence not
distinguishable from entry-not-found at the boundary); and the loop
propagates a failure of the recursive resolution of a followed symlink
target to the caller unmodified. -/
theorem claim5_error_tagging (repo : RepoTree) :
    (∀ (path : String) (d : Nat) (check : Option (String → Option ResolveErr)),
      d > 1000 →
      resolveCommitFilePath repo path d check = .error .tooManyLevels)
    ∧ IsTreeEntryNotFoundInRepoErr .tooManyLevels = false
    ∧ (∀ (check : Option (String → Option ResolveErr))
        (res : String → Except ResolveErr String) (r c : String)
        (rest : List String),
      repo.mode (pathJoin2 r c) = .symlink →
      (pathIsAbs (repo.content (pathJoin2 r c)) = true →
        partsLoop repo check res (c :: rest) r =
          .error (.treeEntryNotFound (repo.content (pathJoin2 r c))) ∧
        IsTreeEntryNotFoundInRepoErr
          (.treeEntryNotFound (repo.content (pathJoin2 r c))) = true) ∧
      (pathIsAbs (repo.content (pathJoin2 r c)) = false →
        (pathJoin2 (pathDir (pathJoin2 r c)) (repo.content (pathJoin2 r c)) = ".." ∨
          startsWithDotDotSlash
            (pathJoin2 (pathDir (pathJoin2 r c)) (repo.content (pathJoin2 r c))) = true) →
        partsLoop repo check res (c :: rest) r =
          .error (.treeEntryNotFound (repo.content (pathJoin2 r c))) ∧
        IsTreeEntryNotFoundInRepoErr
          (.treeEntryNotFound (repo.content (pathJoin2 r c))) = true) ∧
      (¬(pathJoin2 (pathDir (pathJoin2 r c)) (repo.content (pathJoin2 r c)) = ".." ∨
          startsWithDotDotSlash
            (pathJoin2 (pathDir (pathJoin2 r c)) (repo.content (pathJoin2 r c))) = true) →
        pathIsAbs (repo.content (pathJoin2 r c)) = false →
        checkHook check
          (pathJoin2 (pathDir (pathJoin2 r c)) (repo.content (pathJoin2 r c))) = none →
        ∀ e : ResolveErr,
          res (pathJoin2 (pathDir (pathJoin2 r c)) (repo.content (pathJoin2 r c))) =
            .error e →
          partsLoop repo check res (c :: rest) r = .error e)) := by
  refine ⟨?_, rfl, ?_⟩
  · intro path d check hd
    simp only [resolveCommitFilePath]
    rw [resolveAux.eq_def]
    simp [hd]
  · intro check res r c rest hsym
    refine ⟨?_, ?_, ?_⟩
    · intro habs
      constructor
      · simp [partsLoop, hsym, FileMode.isMalformed, habs]
      · rfl
    · intro habs hesc
      constructor
      · simp [partsLoop, hsym, FileMode.isMalformed, habs, hesc]
      · rfl
    · intro hesc habs hhook e he
      simp [partsLoop, hsym, FileMode.isMalformed, habs, hesc, hhook, he]

/-- Witness for the amended C5 at concrete inputs: resolution entered past
the depth limit fails with the untagged too-many-levels error, which the
not-found discriminator rejects; and the loop propagates an inner
resolution failure unmodified. -/
theorem claim5_error_tagging_witness :
    resolveCommitFilePath probeRepo "f.txt" 1001 none =
      .error .tooManyLevels
    ∧ IsTreeEntryNotFoundInRepoErr .tooManyLevels = false
    ∧ partsLoop sampleRepoSym none (fun _ => .error (.hookErr "inner"))
        ["a", "b"] "" = .error (.hookErr "inner") :=
  ⟨(claim5_error_tagging probeRepo).1 "f.txt" 1001 none (by decide),
   (claim5_error_tagging probeRepo).2.1,
   ((claim5_error_tagging sampleRepoSym).2.2 none
      (fun _ => .error (.hookErr "inner")) "" "a" ["b"] rfl).2.2
     (by decide) rfl rfl (.hookErr "inner") rfl⟩

/-- A path lying outside the work-tree root: absolute, exactly dot-dot, or
starting with a dot-dot segment. -/
def escapesRoot (p : String) : Bool :=
  pathIsAbs p || decide (p = "..") || startsWithDotDotSlash p

/-- Well-formedness of a commit tree: there is no entry at any path lying
outside the work-tree root.  Every tree a real ls-tree reports satisfies
this, since git tree paths are relative paths inside the repository. -/
def repoWellFormed (repo : RepoTree) : Prop :=
  ∀ p, escapesRoot p = true → (repo.mode p).isMalformed = true

/-- In a well-formed commit tree, when every successful recursive target
resolution yields a non-escaping path and the accumulated prefix does not
escape, a successful component walk yields a non-escaping path. -/
theorem partsLoop_ok_no_escape (repo : RepoTree) (hwf : repoWellFormed repo)
    (check : Option (String → Option ResolveErr))
    (res : String → Except ResolveErr String)
    (hres : ∀ t rp, res t = .ok rp → escapesRoot rp = false) :
    ∀ (parts : List String) (r rp : String), escapesRoot r = false →
      partsLoop repo check res parts r = .ok rp → escapesRoot rp = false := by
  intro parts
  induction parts with
  | nil =>
    intro r rp hr h
    simp only [partsLoop] at h
    injection h with h2
    subst h2
    exact hr
  | cons c rest ih =>
    intro r rp hr h
    simp only [partsLoop] at h
    split at h
    · exact Except.noConfusion h
    · split at h
      · split at h
        · exact Except.noConfusion h
        · split at h
          · exact Except.noConfusion h
          · split at h
            · exact Except.noConfusion h
            · split at h
              · exact Except.noConfusion h
              · rename_i t heq
                exact ih t rp (hres _ t heq) h
      · rename_i hmal hsym
        have hesc2 : escapesRoot (pathJoin2 r c) = false := by
          cases hE : escapesRoot (pathJoin2 r c)
          · rfl
          · exact absurd (hwf _ hE) hmal
        exact ih (pathJoin2 r c) rp hesc2 h

/-- In a well-formed commit tree, a successful resolution at any fuel and
depth yields a non-escaping path. -/
theorem resolveAux_ok_no_escape (repo : RepoTree) (hwf : repoWellFormed repo)
    (check : Option (String → Option ResolveErr)) :
    ∀ (fuel : Nat) (path : String) (d : Nat) (rp : String),
      resolveAux repo check fuel path d = .ok rp → escapesRoot rp = false := by
  intro fuel
  induction fuel with
  | zero =>
    intro path d rp h
    unfold resolveAux at h
    split at h
    · exact Except.noConfusion h
    · split at h
      · rename_i hfast
        injection h with h2
        subst h2
        cases hE : escapesRoot path
        · rfl
        · exact absurd (hwf _ hE) (by simp [hfast.2])
      · exact Except.noConfusion h
  | succ fuel ih =>
    intro path d rp h
    unfold resolveAux at h
    split at h
    · exact Except.noConfusion h
    · split at h
      · rename_i hfast
        injection h with h2
        subst h2
        cases hE : escapesRoot path
        · rfl
        · exact absurd (hwf _ hE) (by simp [hfast.2])
      · exact partsLoop_ok_no_escape repo hwf check
          (fun target => resolveAux repo check fuel target (d + 1))
          (fun t rp2 ht => ih t (d + 1) rp2 ht)
          (SplitFilepath path) "" rp (by decide) h

/-- The commit tree probeRepo is well formed: its two entries lie at plain
relative paths. -/
theorem probeRepo_wellFormed : repoWellFormed probeRepo := by
  intro p hp
  by_cases h1 : p = "f.txt"
  · subst h1
    exact absurd hp (by decide)
  · by_cases h2 : p = "d"
    · subst h2
      exact absurd hp (by decide)
    · simp [probeRepo, h1, h2, FileMode.isMalformed]

/-- C4: a top-level symlink whose computed target (joined relative to the
link's parent directory) equals ".." or starts with "../" always fails
resolution with the failure raised by the repository-escape check, for
every configuration of the validation hook, the hook never being consulted
for such a target; and in a well-formed commit tree a successful resolution
never yields a path outside the work-tree root. -/
theorem claim4_escape_never_resolves :
    (∀ (repo : RepoTree) (check : Option (String → Option ResolveErr))
        (c path : String),
      SplitFilepath path = [c] →
      pathJoin2 "" c = path →
      repo.mode path = .symlink →
      pathIsAbs (repo.content path) = false →
      (pathJoin2 (pathDir path) (repo.content path) = ".." ∨
        startsWithDotDotSlash (pathJoin2 (pathDir path) (repo.content path)) = true) →
      resolveCommitFilePath repo path 0 check =
        .error (.treeEntryNotFound (repo.content path)))
    ∧ (∀ repo : RepoTree, repoWellFormed repo →
      ∀ (path : String) (d : Nat)
        (check : Option (String → Option ResolveErr)) (rp : String),
        resolveCommitFilePath repo path d check = .ok rp →
        escapesRoot rp = false) := by
  constructor
  · intro repo check c path hsplit hjoin hsym habs hesc
    have e1 : resolveCommitFilePath repo path 0 check =
        resolveAux repo check (Nat.succ 1000) path 0 := rfl
    rw [e1, resolveAux.eq_def]
    simp [hsym, FileMode.isMalformed, hsplit, hjoin, habs, hesc, partsLoop]
  · intro repo hwf path d check rp h
    exact resolveAux_ok_no_escape repo hwf check (1001 - d) path d rp h

/-- Witness for C4 at concrete inputs: the top-level symlink with target
"../out" fails resolution both with a hook that rejects everything and with
no hook - with the same escape failure, showing the hook is not consulted -
and a successfully resolved path does not escape the root. -/
theorem claim4_escape_never_resolves_witness :
    resolveCommitFilePath sampleRepoEsc "e" 0
        (some (fun _ => some (ResolveErr.hookErr "deny"))) =
      .error (.treeEntryNotFound "../out")
    ∧ resolveCommitFilePath sampleRepoEsc "e" 0 none =
      .error (.treeEntryNotFound "../out")
    ∧ escapesRoot "f.txt" = false :=
  ⟨claim4_escape_never_resolves.1 sampleRepoEsc
     (some (fun _ => some (ResolveErr.hookErr "deny"))) "e" "e"
     (by decide) (by decide) rfl rfl (by decide),
   claim4_escape_never_resolves.1 sampleRepoEsc none "e" "e"
     (by decide) (by decide) rfl rfl (by decide),
   claim4_escape_never_resolves.2 probeRepo probeRepo_wellFormed "f.txt" 0 none
     "f.txt" rfl⟩

/-- A path matcher matching every path, used for concrete instances. -/
def matchAllPM : PathMatcher :=
  ⟨fun _ => true, fun _ => true⟩

/-- A submodule with every state flag raised, used for concrete instances. -/
def allFlagsSubmodule : SubmoduleStatus :=
  ⟨"vendor/sub", false, false, true, true, true, true⟩

/-- A status result with an untracked file, an uncommitted file, and a
violating submodule all present at once, used for concrete instances. -/
def busyStatusResult : StatusResult :=
  ⟨["foo.txt"], ⟨["w.txt"], [allFlagsSubmodule]⟩, ⟨["u.txt"], [allFlagsSubmodule]⟩⟩

/-- A status result whose untracked list is empty while uncommitted paths
and a violating submodule exist, used for concrete instances. -/
def noUntrackedStatusResult : StatusResult :=
  ⟨[], ⟨["w.txt"], [allFlagsSubmodule]⟩, ⟨["u.txt"], [allFlagsSubmodule]⟩⟩

/-- C1: ValidateStatusResult checks untracked paths first: whenever at least
one untracked path is matched it returns UntrackedFilesFound carrying
exactly the matched untracked paths, whatever the uncommitted-path and
submodule state of the status result and whatever the options; and when
OnlyUntrackedChanges is set and no untracked path matches, it returns no
violation, again whatever the uncommitted-path and submodule state. -/
theorem claim1_untracked_first (sr : StatusResult) (pm : PathMatcher)
    (opts : StatusPathListOptions) :
    (sr.untrackedPathList.filter pm.isPathMatched ≠ [] →
      ValidateStatusResult sr pm opts =
        some (.untrackedFilesFound (sr.untrackedPathList.filter pm.isPathMatched)))
    ∧ (sr.untrackedPathList.filter pm.isPathMatched = [] →
      opts.onlyUntrackedChanges = true →
      ValidateStatusResult sr pm opts = none) := by
  constructor
  · intro h
    simp only [ValidateStatusResult]
    rw [if_pos h]
  · intro h h2
    simp only [ValidateStatusResult]
    rw [if_neg (not_not_intro h), if_pos h2]

/-- Witness for C1 at concrete inputs: with an untracked file, an
uncommitted file and a violating submodule all present and everything
matched, the untracked violation is reported; with no untracked file and
OnlyUntrackedChanges set, no violation is reported although the uncommitted
file and the violating submodule are still present. -/
theorem claim1_untracked_first_witness :
    ValidateStatusResult busyStatusResult matchAllPM ⟨false, false⟩ =
      some (StatusError.untrackedFilesFound ["foo.txt"])
    ∧ ValidateStatusResult noUntrackedStatusResult matchAllPM ⟨false, true⟩ = none :=
  ⟨(claim1_untracked_first busyStatusResult matchAllPM ⟨false, false⟩).1 (by decide),
   (claim1_untracked_first noUntrackedStatusResult matchAllPM ⟨false, true⟩).2
     (by decide) (by decide)⟩

/-- C8: submodule violation classification follows the priority Added over
Deleted over Modified, and within Modified the priority HasUntrackedChanges
over HasTrackedChanges over CommitChanged; the first matched submodule for
which a branch applies decides the single returned violation whatever the
remaining submodules hold, and an unmatched submodule is skipped.  In
particular a submodule flagged Modified with all three inner flags raised
yields only SubmoduleHasUntrackedChanges. -/
theorem claim8_submodule_priority (pm : PathMatcher) (sm : SubmoduleStatus)
    (rest : List SubmoduleStatus)
    (hm : pm.isDirOrSubmodulePathMatched sm.path = true) :
    (sm.isAdded = true →
      validateSubmodulesLoop pm (sm :: rest) =
        some (.submoduleAddedAndNotCommitted sm.path))
    ∧ (sm.isAdded = false → sm.isDeleted = true →
      validateSubmodulesLoop pm (sm :: rest) = some (.submoduleDeleted sm.path))
    ∧ (sm.isAdded = false → sm.isDeleted = false → sm.isModified = true →
      sm.hasUntrackedChanges = true →
      validateSubmodulesLoop pm (sm :: rest) =
        some (.submoduleHasUntrackedChanges sm.path))
    ∧ (sm.isAdded = false → sm.isDeleted = false → sm.isModified = true →
      sm.hasUntrackedChanges = false → sm.hasTrackedChanges = true →
      validateSubmodulesLoop pm (sm :: rest) =
        some (.submoduleHasUncommittedChanges sm.path))
    ∧ (sm.isAdded = false → sm.isDeleted = false → sm.isModified = true →
      sm.hasUntrackedChanges = false → sm.hasTrackedChanges = false →
      sm.isCommitChanged = true →
      validateSubmodulesLoop pm (sm :: rest) =
        some (.submoduleCommitChanged sm.path))
    ∧ (∀ sm2 : SubmoduleStatus, pm.isDirOrSubmodulePathMatched sm2.path = false →
      validateSubmodulesLoop pm (sm2 :: rest) = validateSubmodulesLoop pm rest) := by
  refine ⟨?_, ?_, ?_, ?_, ?_, ?_⟩ <;> intros <;>
    simp_all [validateSubmodulesLoop]

/-- Witness for C8 at concrete inputs: a matched submodule simultaneously
flagged Modified, HasUntrackedChanges, HasTrackedChanges and CommitChanged
yields only SubmoduleHasUntrackedChanges, even with further violating
submodules behind it. -/
theorem claim8_submodule_priority_witness :
    validateSubmodulesLoop matchAllPM
        [allFlagsSubmodule, ⟨"other", true, false, false, false, false, false⟩] =
      some (StatusError.submoduleHasUntrackedChanges "vendor/sub") :=
  (claim8_submodule_priority matchAllPM allFlagsSubmodule
      [⟨"other", true, false, false, false, false, false⟩] (by decide)).2.2.1
    (by decide) (by decide) (by decide) (by decide)

/-- C10: a matched submodule that is neither added nor deleted reports no
violation and the scan continues with the remaining submodules when either
it is flagged Modified with HasUntrackedChanges, HasTrackedChanges and
IsCommitChanged all false, or it is not flagged Modified at all (whatever
IsCommitChanged holds, covering a submodule flagged only IsCommitChanged). -/
theorem claim10_no_violation_continues (pm : PathMatcher) (pl : List String)
    (sm : SubmoduleStatus) (rest : List SubmoduleStatus)
    (hm : pm.isDirOrSubmodulePathMatched sm.path = true)
    (ha : sm.isAdded = false) (hd : sm.isDeleted = false) :
    (sm.isModified = true → sm.hasUntrackedChanges = false →
      sm.hasTrackedChanges = false → sm.isCommitChanged = false →
      validateStatusResultSubmodules pm ⟨pl, sm :: rest⟩ =
        validateSubmodulesLoop pm rest)
    ∧ (sm.isModified = false →
      validateStatusResultSubmodules pm ⟨pl, sm :: rest⟩ =
        validateSubmodulesLoop pm rest) := by
  constructor <;> intros <;>
    simp_all [validateStatusResultSubmodules, validateSubmodulesLoop]

/-- Witness for C10 at concrete inputs: a matched, modified submodule with
no inner flag raised is passed over and the next submodule is classified;
a submodule flagged only IsCommitChanged without Modified is likewise
passed over. -/
theorem claim10_no_violation_continues_witness :
    validateStatusResultSubmodules matchAllPM
        ⟨[], [⟨"s1", false, false, true, false, false, false⟩,
              ⟨"s2", false, true, false, false, false, false⟩]⟩ =
      validateSubmodulesLoop matchAllPM [⟨"s2", false, true, false, false, false, false⟩]
    ∧ validateStatusResultSubmodules matchAllPM
        ⟨[], [⟨"s3", false, false, false, false, false, true⟩]⟩ =
      validateSubmodulesLoop matchAllPM [] :=
  ⟨(claim10_no_violation_continues matchAllPM []
        ⟨"s1", false, false, true, false, false, false⟩
        [⟨"s2", false, true, false, false, false, false⟩]
        (by decide) (by decide) (by decide)).1 (by decide) (by decide) (by decide)
     (by decide),
   (claim10_no_violation_continues matchAllPM []
        ⟨"s3", false, false, false, false, false, true⟩ []
        (by decide) (by decide) (by decide)).2 (by decide)⟩

/-- Intercalating a separator through a one-element list gives back its
element. -/
theorem intercalate_single (sep s : String) : String.intercalate sep [s] = s := rfl

/-- A string with nonempty character data is not the empty string. -/
theorem ne_empty_of_data_ne_nil {s : String} (h : s.data ≠ []) : s ≠ "" := by
  intro he
  subst he
  exact h rfl

/-- Splitting a slash-free character list yields the single segment made of
the accumulator and that list. -/
theorem splitSlashAux_no_slash (cs : List Char) :
    ∀ acc : List Char, (∀ c ∈ cs, c ≠ '/') →
      splitSlashAux cs acc = [String.mk (acc.reverse ++ cs)] := by
  induction cs with
  | nil =>
    intro acc h
    simp [splitSlashAux]
  | cons c cs ih =>
    intro acc h
    have hc : c ≠ '/' := h c (by simp)
    simp only [splitSlashAux]
    rw [if_neg hc, ih (c :: acc) (fun x hx => h x (by simp [hx]))]
    simp

/-- Splitting a slash-free string yields the string as its only segment. -/
theorem splitSlash_no_slash (s : String) (h : ∀ c ∈ s.data, c ≠ '/') :
    splitSlash s = [s] := by
  unfold splitSlash
  rw [splitSlashAux_no_slash s.data [] h]
  rfl

/-- A plain file name: nonempty, slash-free, and not a dot or dot-dot. -/
def plainName (s : String) : Prop :=
  s.data ≠ [] ∧ (∀ c ∈ s.data, c ≠ '/') ∧ s ≠ "." ∧ s ≠ ".."

/-- A slash-free string is not rooted. -/
theorem isRooted_eq_false_of_no_slash (s : String)
    (h : ∀ c ∈ s.data, c ≠ '/') : isRooted s = false := by
  unfold isRooted
  split
  · rfl
  · rename_i c cs heq
    simp [h c (by rw [heq]; simp)]

/-- A string whose first character is not a slash is not rooted. -/
theorem isRooted_eq_false_of_head (s : String) (c : Char) (cs : List Char)
    (hd : s.data = c :: cs) (hc : c ≠ '/') : isRooted s = false := by
  unfold isRooted
  rw [hd]
  simp [hc]

/-- Cleaning a non-rooted path whose element list reduces to one ordinary
element yields that element. -/
theorem pathClean_single_comp (s t : String) (hroot : isRooted s = false)
    (hcomps : (splitSlash s).filter (fun c => decide (c ≠ "" ∧ c ≠ ".")) = [t])
    (ht2 : t ≠ "..") (ht1 : t ≠ "") :
    pathClean s = t := by
  simp only [pathClean]
  rw [hroot, hcomps]
  simp [cleanStep, ht2, intercalate_single, ht1]

/-- Cleaning a plain name returns it unchanged. -/
theorem pathClean_plain (s : String) (h : plainName s) : pathClean s = s := by
  obtain ⟨hne, hs, hdot, hddot⟩ := h
  have hne2 : s ≠ "" := ne_empty_of_data_ne_nil hne
  refine pathClean_single_comp s s (isRooted_eq_false_of_no_slash s hs) ?_ hddot hne2
  rw [splitSlash_no_slash s hs]
  simp [hne2, hdot]

/-- The parent directory of a slash-free path is the dot directory. -/
theorem pathDir_no_slash (s : String) (h : ∀ c ∈ s.data, c ≠ '/') :
    pathDir s = "." := by
  unfold pathDir
  rw [List.dropWhile_eq_nil_iff.mpr ?_]
  · rfl
  · intro x hx
    simp [h x (List.mem_reverse.mp hx)]

/-- Joining a plain name onto the empty prefix yields the name. -/
theorem pathJoin2_empty_plain (s : String) (h : plainName s) :
    pathJoin2 "" s = s := by
  have hne2 : s ≠ "" := ne_empty_of_data_ne_nil h.1
  unfold pathJoin2
  rw [if_pos rfl, if_neg hne2, pathClean_plain s h]

/-- The character data of a string prefixed with a dot element. -/
theorem data_dotslash (s : String) :
    ("." ++ "/" ++ s).data = '.' :: '/' :: s.data := by
  rw [String.data_append, String.data_append]
  rfl

/-- Splitting a slash-free string prefixed with a dot element. -/
theorem splitSlash_dotslash (s : String) (h : ∀ c ∈ s.data, c ≠ '/') :
    splitSlash ("." ++ "/" ++ s) = [".", s] := by
  unfold splitSlash
  rw [data_dotslash]
  simp only [splitSlashAux]
  rw [if_neg (by decide)]
  rw [if_pos trivial, splitSlashAux_no_slash s.data _ h]
  rfl

/-- Joining a plain name onto the dot directory yields the name. -/
theorem pathJoin2_dot_plain (s : String) (h : plainName s) :
    pathJoin2 "." s = s := by
  have hne2 : s ≠ "" := ne_empty_of_data_ne_nil h.1
  unfold pathJoin2
  rw [if_neg (by decide : ¬(("." : String) = "")), if_neg hne2]
  refine pathClean_single_comp _ s ?_ ?_ h.2.2.2 hne2
  · exact isRooted_eq_false_of_head _ '.' ('/' :: s.data) (data_dotslash s) (by decide)
  · rw [splitSlash_dotslash s h.2.1]
    simp [hne2, h.2.2.1]

/-- The i-th link name of the synthetic symlink chain: i+1 letters a, so
distinct chain members have distinct single-component names. -/
def linkName (i : Nat) : String := String.mk (List.replicate (i + 1) 'a')

/-- The character data of a link name. -/
theorem linkName_data (i : Nat) : (linkName i).data = List.replicate (i + 1) 'a' := rfl

/-- Every link name is a plain file name. -/
theorem linkName_plain (i : Nat) : plainName (linkName i) := by
  refine ⟨?_, ?_, ?_, ?_⟩
  · simp [linkName_data]
  · intro c hc
    rw [linkName_data, List.mem_replicate] at hc
    rw [hc.2]
    decide
  · intro h
    have h2 : 'a' ∈ (linkName i).data := by
      simp [linkName_data, List.mem_replicate]
    rw [h] at h2
    simp at h2
  · intro h
    have h2 : 'a' ∈ (linkName i).data := by
      simp [linkName_data, List.mem_replicate]
    rw [h] at h2
    simp at h2

/-- A string with no dot among its characters has no dot-dot-slash
beginning. -/
theorem startsWithDotDotSlash_eq_false_of_no_dot (s : String)
    (h : ∀ c ∈ s.data, c ≠ '.') : startsWithDotDotSlash s = false := by
  unfold startsWithDotDotSlash
  split
  · rename_i c1 c2 c3 rest heq
    simp [h c1 (by rw [heq]; simp)]
  · rfl

/-- A link name has no dot-dot-slash beginning. -/
theorem startsWithDotDotSlash_linkName (i : Nat) :
    startsWithDotDotSlash (linkName i) = false := by
  apply startsWithDotDotSlash_eq_false_of_no_dot
  intro c hc
  rw [linkName_data, List.mem_replicate] at hc
  rw [hc.2]
  decide

/-- Decodes a link name back to its index: defined exactly on the nonempty
all-a strings. -/
def decodeA (p : String) : Option Nat :=
  if p.data ≠ [] ∧ p.data.all (fun c => decide (c = 'a')) then
    some (p.data.length - 1)
  else none

/-- Decoding inverts the link naming. -/
theorem decodeA_linkName (i : Nat) : decodeA (linkName i) = some i := by
  unfold decodeA
  have hcond : (linkName i).data ≠ [] ∧
      (linkName i).data.all (fun c => decide (c = 'a')) := by
    constructor
    · simp [linkName_data]
    · rw [linkName_data]
      simp [List.all_eq_true, List.mem_replicate]
  rw [if_pos hcond]
  simp [linkName_data]

/-- The synthetic chain commit tree: for i below n the entry at the i-th
link name is a symlink whose text is the next link name, the entry at the
n-th link name is a regular file, and there is no other entry. -/
def chainRepo (n : Nat) : RepoTree where
  mode p :=
    match decodeA p with
    | some k => if k < n then .symlink else if k = n then .regular else .empty
    | none => .empty
  content p :=
    match decodeA p with
    | some k => if k < n then linkName (k + 1) else ""
    | none => ""

/-- The mode the chain tree assigns to a link name. -/
theorem chainRepo_mode (n i : Nat) :
    (chainRepo n).mode (linkName i) =
      if i < n then .symlink else if i = n then .regular else .empty := by
  simp only [chainRepo]
  rw [decodeA_linkName]

/-- The link text the chain tree assigns to a chain symlink. -/
theorem chainRepo_content (n i : Nat) (h : i < n) :
    (chainRepo n).content (linkName i) = linkName (i + 1) := by
  simp only [chainRepo]
  rw [decodeA_linkName]
  simp [h]

/-- Splitting a plain name yields it as the only component. -/
theorem SplitFilepath_plain (s : String) (h : plainName s) :
    SplitFilepath s = [s] := by
  unfold SplitFilepath
  rw [splitSlash_no_slash s h.2.1]
  simp [ne_empty_of_data_ne_nil h.1]

/-- Resolving the j-th link of the n-chain at depth d succeeds with the
final name when the depth budget d plus the remaining chain length fits
under the limit, and fails with the too-many-levels error otherwise: the
depth counter is shared along the recursion and advances by one per hop. -/
theorem chain_resolve (n : Nat) :
    ∀ (k j d : Nat), j + k = n →
      resolveCommitFilePath (chainRepo n) (linkName j) d none =
        if d + k ≤ 1000 then .ok (linkName n) else .error .tooManyLevels := by
  intro k
  induction k with
  | zero =>
    intro j d hj
    have hj2 : j = n := by omega
    rw [hj2]
    by_cases hd : d > 1000
    · rw [if_neg (by omega)]
      unfold resolveCommitFilePath
      unfold resolveAux
      simp [hd]
    · rw [if_pos (by omega)]
      have hf : 1001 - d = (1000 - d) + 1 := by omega
      have hmode : (chainRepo n).mode (linkName n) = .regular := by
        rw [chainRepo_mode]
        simp
      unfold resolveCommitFilePath
      rw [hf]
      unfold resolveAux
      rw [if_neg hd]
      simp only [hmode]
      rw [if_pos (by decide)]
  | succ k ih =>
    intro j d hj
    have hjn : j < n := by omega
    by_cases hd : d > 1000
    · rw [if_neg (by omega)]
      unfold resolveCommitFilePath
      unfold resolveAux
      simp [hd]
    · have hf : 1001 - d = (1000 - d) + 1 := by omega
      have e1 : pathJoin2 "" (linkName j) = linkName j :=
        pathJoin2_empty_plain _ (linkName_plain j)
      have e2 : (chainRepo n).mode (linkName j) = .symlink := by
        rw [chainRepo_mode]
        simp [hjn]
      have e3 : (chainRepo n).content (linkName j) = linkName (j + 1) :=
        chainRepo_content n j hjn
      have e4 : pathIsAbs (linkName (j + 1)) = false :=
        isRooted_eq_false_of_no_slash _ (linkName_plain (j + 1)).2.1
      have e5 : pathDir (linkName j) = "." :=
        pathDir_no_slash _ (linkName_plain j).2.1
      have e6 : pathJoin2 "." (linkName (j + 1)) = linkName (j + 1) :=
        pathJoin2_dot_plain _ (linkName_plain (j + 1))
      have e7 : ¬(linkName (j + 1) = ".." ∨
          startsWithDotDotSlash (linkName (j + 1)) = true) := by
        rintro (h | h)
        · exact (linkName_plain (j + 1)).2.2.2 h
        · rw [startsWithDotDotSlash_linkName] at h
          cases h
      have e8 : SplitFilepath (linkName j) = [linkName j] :=
        SplitFilepath_plain _ (linkName_plain j)
      have e9 : resolveAux (chainRepo n) none (1000 - d) (linkName (j + 1)) (d + 1) =
          if d + 1 + k ≤ 1000 then .ok (linkName n)
          else .error .tooManyLevels := by
        have h2 := ih (j + 1) (d + 1) (by omega)
        unfold resolveCommitFilePath at h2
        rw [show 1001 - (d + 1) = 1000 - d from by omega] at h2
        exact h2
      unfold resolveCommitFilePath
      rw [hf]
      unfold resolveAux
      rw [if_neg hd]
      simp only [e2]
      rw [if_neg (by decide)]
      rw [e8]
      simp only [partsLoop, e1, e2, e3, e4, e5, e6, FileMode.isMalformed,
        checkHook]
      rw [if_pos trivial, if_neg (by simp), if_neg e7]
      simp only [e9]
      by_cases hc : d + 1 + k ≤ 1000
      · rw [if_pos hc, if_pos (by omega : d + (k + 1) ≤ 1000)]
        simp
      · rw [if_neg hc, if_neg (by omega : ¬(d + (k + 1) ≤ 1000))]
        simp

/-- C3: resolution of a chain of n nested symlinks terminates with a result
determined by the depth budget alone: entered at depth d it succeeds
exactly when d plus n stays within 1000 (one increment of the shared depth
counter per hop), so from the entry depth 0 a chain of n symlinks resolves
for every n up to 1000 and fails with the too-many-levels error for every n
beyond 1000. -/
theorem claim3_depth_limit (n d : Nat) :
    (resolveCommitFilePath (chainRepo n) (linkName 0) d none =
      if d + n ≤ 1000 then .ok (linkName n) else .error .tooManyLevels)
    ∧ (n ≤ 1000 →
      resolveCommitFilePath (chainRepo n) (linkName 0) 0 none = .ok (linkName n))
    ∧ (1000 < n →
      resolveCommitFilePath (chainRepo n) (linkName 0) 0 none =
        .error .tooManyLevels) := by
  refine ⟨chain_resolve n n 0 d (by omega), ?_, ?_⟩
  · intro h
    rw [chain_resolve n n 0 0 (by omega), if_pos (by omega)]
  · intro h
    rw [chain_resolve n n 0 0 (by omega), if_neg (by omega)]

/-- Witness for C3 at concrete inputs: the chain of exactly 1001 links
fails with too-many-levels, while the chain of exactly 1000 links still
resolves. -/
theorem claim3_depth_limit_witness :
    resolveCommitFilePath (chainRepo 1001) (linkName 0) 0 none =
      .error .tooManyLevels
    ∧ resolveCommitFilePath (chainRepo 1000) (linkName 0) 0 none =
      .ok (linkName 1000) :=
  ⟨(claim3_depth_limit 1001 0).2.2 (by omega),
   (claim3_depth_limit 1000 0).2.1 (by omega)⟩

end Werf
